import Mathlib

/-!
Shallow embedding of the countdown/alarm clock widget (src/src/App.tsx) and
proofs about its timer engine, upload validator, track library and BGM player.
Wall-clock instants are modelled as integer milliseconds; JS Math.floor on a
division by 1000 is Int.fdiv, and the JS remainder operator is Int.tmod.
-/

namespace TimerAlarm

/-- Milliseconds in one calendar day; what adding one day to the target date
contributes in this model. -/
def msPerDay : Int := 86400000

/-- A wall-clock instant, split as midnight of the current day plus the
milliseconds elapsed since that midnight. -/
structure Instant where
  dayStart : Int
  msOfDay : Int
deriving DecidableEq, Repr

def Instant.toMs (i : Instant) : Int := i.dayStart + i.msOfDay

/-- TimerType from App.tsx line 5: time-of-day target or duration. -/
inductive TimerType
  | time
  | duration
deriving DecidableEq, Repr

/-- The three duration fields of the durationInput state (App.tsx lines 30-34). -/
structure DurationInput where
  hours : Int
  minutes : Int
  seconds : Int
deriving DecidableEq, Repr

/-- The instant produced by targetDate.setHours(h, m, 0, 0) on a fresh Date:
today at h hours and m minutes, with seconds and milliseconds cleared. -/
def todayAt (now : Instant) (h m : Int) : Int :=
  now.dayStart + (h * 3600 + m * 60) * 1000

/-- startTimer (App.tsx lines 138-157). In time mode an absent target string is
an early return leaving endTime unchanged; otherwise the deadline is today at
the target time, pushed a day later when that instant is already strictly in
the past. In duration mode an all-zero input is an early return; otherwise the
deadline is now plus the total duration in milliseconds. -/
def startTimer (timerType : TimerType) (targetTime : Option (Int × Int))
    (durationInput : DurationInput) (now : Instant) (endTime : Option Int) :
    Option Int :=
  match timerType with
  | .time =>
    match targetTime with
    | none => endTime
    | some (h, m) =>
      let targetDate := todayAt now h m
      if targetDate < now.toMs then some (targetDate + msPerDay)
      else some targetDate
  | .duration =>
    if durationInput.hours = 0 ∧ durationInput.minutes = 0 ∧
        durationInput.seconds = 0 then
      endTime
    else
      some (now.toMs +
        (durationInput.hours * 3600 + durationInput.minutes * 60 +
          durationInput.seconds) * 1000)

/-- Result of one firing of the 1-second interval: the new endTime state and
whether playAlarm was invoked. -/
structure TickResult where
  endTime : Option Int
  alarmFired : Bool
deriving DecidableEq, Repr

/-- One firing of the 1-second interval callback (App.tsx lines 122-136): while
a deadline is set, when now has reached it the alarm plays and the deadline is
cleared; otherwise nothing happens. -/
def tick (endTime : Option Int) (now : Int) : TickResult :=
  match endTime with
  | none => { endTime := none, alarmFired := false }
  | some e =>
    if e ≤ now then { endTime := none, alarmFired := true }
    else { endTime := some e, alarmFired := false }

/-- String(n).padStart(2, "0") for a natural number. -/
def pad2 (n : Nat) : String :=
  if n < 10 then "0" ++ toString n else toString n

/-- getTimeLeft (App.tsx lines 207-216): remaining whole seconds clamped at 0,
rendered as zero-padded HH:MM:SS; null when no deadline is set. -/
def getTimeLeft (endTime : Option Int) (now : Int) : Option String :=
  match endTime with
  | none => none
  | some e =>
    let diff := (max 0 ((e - now).fdiv 1000)).toNat
    let hours := diff / 3600
    let minutes := (diff % 3600) / 60
    let seconds := diff % 60
    some (pad2 hours ++ ":" ++ pad2 minutes ++ ":" ++ pad2 seconds)

/-- The remaining-time formula of the spec: max(0, floor((deadline - now) / 1000)). -/
def remainingSeconds (e now : Int) : Nat := (max 0 ((e - now).fdiv 1000)).toNat

/-- Zero-padded HH:MM:SS rendering of a number of seconds. -/
def formatHMS (d : Nat) : String :=
  pad2 (d / 3600) ++ ":" ++ pad2 ((d % 3600) / 60) ++ ":" ++ pad2 (d % 60)

/-- C1: startTimer meets its contract. In time-of-day mode with a target
present, the deadline is today at that time when that instant has not yet
passed, tomorrow at that time when it has, and in either case is never in the
past. In duration mode an all-zero input leaves endTime unchanged (no deadline
set, running not entered); a nonzero input sets the deadline to the start
instant plus hours*3600 + minutes*60 + seconds seconds, so the engine runs. -/
theorem startTimer_spec (h m : Int) (d : DurationInput) (now : Instant)
    (e : Option Int) (hh : 0 ≤ h) (hm : 0 ≤ m)
    (hn0 : 0 ≤ now.msOfDay) (hn1 : now.msOfDay < msPerDay) :
    (now.toMs ≤ todayAt now h m →
      startTimer .time (some (h, m)) d now e = some (todayAt now h m)) ∧
    (todayAt now h m < now.toMs →
      startTimer .time (some (h, m)) d now e = some (todayAt now h m + msPerDay)) ∧
    (∀ dl, startTimer .time (some (h, m)) d now e = some dl → now.toMs ≤ dl) ∧
    (d.hours = 0 ∧ d.minutes = 0 ∧ d.seconds = 0 →
      startTimer .duration none d now e = e) ∧
    (¬ (d.hours = 0 ∧ d.minutes = 0 ∧ d.seconds = 0) →
      startTimer .duration none d now e =
        some (now.toMs + (d.hours * 3600 + d.minutes * 60 + d.seconds) * 1000)) := by
  have hnonneg : 0 ≤ (h * 3600 + m * 60) * 1000 := by positivity
  refine ⟨?_, ?_, ?_, ?_, ?_⟩
  · intro hle
    simp only [startTimer]
    rw [if_neg (by omega)]
  · intro hlt
    simp only [startTimer]
    rw [if_pos hlt]
  · intro dl hdl
    simp only [startTimer] at hdl
    by_cases hc : todayAt now h m < now.toMs
    · rw [if_pos hc] at hdl
      have : dl = todayAt now h m + msPerDay := by
        exact (Option.some_inj.mp hdl).symm
      subst this
      simp only [todayAt, Instant.toMs, msPerDay] at *
      omega
    · rw [if_neg hc] at hdl
      have : dl = todayAt now h m := by
        exact (Option.some_inj.mp hdl).symm
      subst this
      omega
  · intro hz
    simp only [startTimer]
    rw [if_pos hz]
  · intro hz
    simp only [startTimer]
    rw [if_neg hz]

/-- Witness for startTimer_spec: at midnight plus one second, a 23:59 target
has not yet passed so the deadline is today at 23:59, and an all-zero duration
start from idle stays idle. -/
theorem startTimer_spec_witness :
    startTimer .time (some (23, 59)) ⟨0, 0, 0⟩ ⟨0, 1000⟩ none =
      some (todayAt ⟨0, 1000⟩ 23 59) ∧
    startTimer .duration none ⟨0, 0, 0⟩ ⟨0, 1000⟩ none = none :=
  ⟨(startTimer_spec 23 59 ⟨0, 0, 0⟩ ⟨0, 1000⟩ none (by decide) (by decide)
      (by decide) (by decide)).1 (by decide),
   (startTimer_spec 23 59 ⟨0, 0, 0⟩ ⟨0, 1000⟩ none (by decide) (by decide)
      (by decide) (by decide)).2.2.2.1 ⟨rfl, rfl, rfl⟩⟩

/-- C2 counterexample: with deadline 1500 ms, the tick at 1000 ms displays a
remaining time of 0 (the formula max(0, floor((deadline - now)/1000)) yields 0
and getTimeLeft renders 00:00:00), yet the alarm does not fire on that tick and
the deadline is kept, contradicting the claim that the alarm fires on the tick
where the remaining time reaches 0. -/
theorem tick_remaining_zero_no_alarm :
    remainingSeconds 1500 1000 = 0 ∧
    getTimeLeft (some 1500) 1000 = some "00:00:00" ∧
    (tick (some 1500) 1000).alarmFired = false ∧
    (tick (some 1500) 1000).endTime = some 1500 := by
  refine ⟨by decide, ?_, by decide, by decide⟩
  rfl

/-- C2 amended: at every tick the displayed remaining time is the zero-padded
rendering of max(0, floor((deadline - now)/1000)); the alarm fires exactly when
now has reached the deadline, and on that tick the remaining time is 0 and the
deadline is cleared so no later tick can fire again; a tick strictly before the
deadline fires nothing and keeps the deadline, even though it may already
display a remaining time of 0 when the deadline is less than one second away. -/
theorem tick_alarm_spec (e now n2 : Int) :
    ((tick (some e) now).alarmFired = true ↔ e ≤ now) ∧
    (e ≤ now →
      (tick (some e) now).endTime = none ∧ remainingSeconds e now = 0) ∧
    (now < e → tick (some e) now = { endTime := some e, alarmFired := false }) ∧
    (tick none n2).alarmFired = false ∧
    getTimeLeft (some e) now = some (formatHMS (remainingSeconds e now)) := by
  refine ⟨?_, ?_, ?_, rfl, ?_⟩
  · simp only [tick]
    by_cases hc : e ≤ now
    · rw [if_pos hc]; simpa using hc
    · rw [if_neg hc]; simpa using hc
  · intro hc
    constructor
    · simp only [tick]; rw [if_pos hc]
    · have hd : (e - now).fdiv 1000 = (e - now) / 1000 :=
        Int.fdiv_eq_ediv _ (by omega)
      simp only [remainingSeconds, hd]
      have : (e - now) / 1000 ≤ 0 := by omega
      omega
  · intro hc
    simp only [tick]
    rw [if_neg (by omega)]
  · simp only [getTimeLeft, formatHMS, remainingSeconds]

/-- Witness for tick_alarm_spec: at deadline 1000 ms the tick at 1500 ms clears
the deadline and the remaining time is 0. -/
theorem tick_alarm_spec_witness :
    (tick (some 1000) 1500).endTime = none ∧ remainingSeconds 1000 1500 = 0 :=
  (tick_alarm_spec 1000 1500 0).2.1 (by decide)

/-- MAX_FILE_SIZE (App.tsx line 18): 10 MB. -/
def MAX_FILE_SIZE : Nat := 10 * 1024 * 1024

/-- ACCEPTED_FORMATS (App.tsx lines 19-24). -/
def ACCEPTED_FORMATS : List String :=
  ["audio/mpeg", "audio/wav", "audio/ogg", "audio/x-m4a"]

/-- BGMTrack (App.tsx lines 7-16). -/
structure BGMTrack where
  id : String
  title : String
  composer : String
  filename : String
  originalName : String
  size : Nat
  type : String
  uploadedAt : String
deriving DecidableEq, Repr

/-- The state cells touched by upload and deletion: the in-memory track list,
the persisted bgmTracks entry, the upload error message, the selection, the
playback and load flags, and the upload-form visibility. -/
structure AppState where
  tracks : List BGMTrack
  persisted : List BGMTrack
  uploadError : Option String
  selectedTrack : Option BGMTrack
  isBGMPlaying : Bool
  isBGMLoaded : Bool
  showUploadForm : Bool
deriving DecidableEq, Repr

/-- Error message for an oversized file (App.tsx line 257). -/
def sizeErrorMsg : String := "ファイルサイズは10MB以下にしてください"

/-- Error message for an unsupported MIME type (App.tsx line 263). -/
def formatErrorMsg : String := "対応していないファイル形式です"

/-- The characters of a string before its first dot; this is what the
expression name.split(".")[0] of the source evaluates to. -/
def beforeFirstDot (name : String) : String :=
  String.mk (name.toList.takeWhile (fun c => c != '.'))

/-- Whether the first list is an initial segment of the second, character by
character; used to embed the startsWith("blob:") tests of the source. -/
def charsStartWith : List Char → List Char → Bool
  | [], _ => true
  | _ :: _, [] => false
  | p :: ps, c :: cs => p == c && charsStartWith ps cs

/-- The test s.startsWith("blob:") of the source. -/
def isBlobUrl (s : String) : Bool := charsStartWith "blob:".toList s.toList

/-- The track built in reader.onload (App.tsx lines 291-300): id is the decimal
string of the timestamp captured at admission, title is the part of the file
name before its first dot, composer is the fixed placeholder 不明, and filename
holds the freshly created blob URL. -/
def mkTrack (name : String) (size : Nat) (typ : String) (timestamp : Nat)
    (uploadedAt blobUrl : String) : BGMTrack :=
  { id := toString timestamp
    title := beforeFirstDot name
    composer := "不明"
    filename := blobUrl
    originalName := name
    size := size
    type := typ
    uploadedAt := uploadedAt }

/-- The file-input onChange handler (App.tsx lines 251-314) together with the
reader.onload continuation: an oversized file sets the size error and returns;
a file of unsupported MIME type sets the format error and returns; otherwise
the error is cleared, the new track is appended, the full list is persisted,
the new track becomes selected and the upload form closes. -/
def handleFileUpload (st : AppState) (name : String) (size : Nat) (typ : String)
    (timestamp : Nat) (uploadedAt blobUrl : String) : AppState :=
  if size > MAX_FILE_SIZE then
    { st with uploadError := some sizeErrorMsg }
  else if ¬ (typ ∈ ACCEPTED_FORMATS) then
    { st with uploadError := some formatErrorMsg }
  else
    let newTrack := mkTrack name size typ timestamp uploadedAt blobUrl
    let updatedTracks := st.tracks ++ [newTrack]
    { st with
        uploadError := none
        tracks := updatedTracks
        persisted := updatedTracks
        selectedTrack := some newTrack
        showUploadForm := false }

/-- An app state with nothing uploaded, selected or playing. -/
def emptyState : AppState :=
  { tracks := []
    persisted := []
    uploadError := none
    selectedTrack := none
    isBGMPlaying := false
    isBGMLoaded := false
    showUploadForm := true }

/-- C3 counterexample: a 10,485,761-byte file of MIME type text/plain has a
type outside the accepted set, yet the handler reports the size error and not
the format error, because the size check runs first; so the claim that a format
error is raised exactly when the MIME type is outside the set fails. -/
theorem upload_oversize_unsupported_counterexample :
    ¬ ("text/plain" ∈ ACCEPTED_FORMATS) ∧
    (handleFileUpload emptyState "a.txt" 10485761 "text/plain" 0 "" "").uploadError
      = some sizeErrorMsg ∧
    (handleFileUpload emptyState "a.txt" 10485761 "text/plain" 0 "" "").uploadError
      ≠ some formatErrorMsg := by
  refine ⟨by decide, rfl, by decide⟩

/-- C3 amended: the handler reports the size error exactly when the byte size
exceeds 10,485,760; among files within the size limit it reports the format
error exactly when the MIME type is outside the accepted set (an oversized file
of unsupported type gets the size error, the size check running first); any
rejection leaves the in-memory and persisted track lists unchanged; an admitted
file clears the error and appends exactly its track to the list. -/
theorem upload_validation_spec (st : AppState) (name : String) (size : Nat)
    (typ : String) (ts : Nat) (ua bu : String) :
    MAX_FILE_SIZE = 10485760 ∧
    ((handleFileUpload st name size typ ts ua bu).uploadError = some sizeErrorMsg ↔
      size > MAX_FILE_SIZE) ∧
    ((handleFileUpload st name size typ ts ua bu).uploadError = some formatErrorMsg ↔
      (size ≤ MAX_FILE_SIZE ∧ ¬ typ ∈ ACCEPTED_FORMATS)) ∧
    (size > MAX_FILE_SIZE ∨ ¬ typ ∈ ACCEPTED_FORMATS →
      (handleFileUpload st name size typ ts ua bu).tracks = st.tracks ∧
      (handleFileUpload st name size typ ts ua bu).persisted = st.persisted) ∧
    (size ≤ MAX_FILE_SIZE → typ ∈ ACCEPTED_FORMATS →
      (handleFileUpload st name size typ ts ua bu).uploadError = none ∧
      (handleFileUpload st name size typ ts ua bu).tracks
        = st.tracks ++ [mkTrack name size typ ts ua bu]) := by
  have hne : sizeErrorMsg ≠ formatErrorMsg := by decide
  have hne2 : formatErrorMsg ≠ sizeErrorMsg := fun h => hne h.symm
  simp only [handleFileUpload]
  split_ifs with h1 h2
  · have h1n : ¬ size ≤ MAX_FILE_SIZE := by omega
    refine ⟨by decide, by simp [h1], by simp [hne, h1n], fun _ => ⟨rfl, rfl⟩, ?_⟩
    intro h
    omega
  · refine ⟨by decide, by simp [h1], by simp [h2], ?_, fun _ _ => ⟨rfl, rfl⟩⟩
    intro h
    rcases h with h | h
    · omega
    · exact absurd h2 h
  · have h1n : size ≤ MAX_FILE_SIZE := by omega
    refine ⟨by decide, by simp [hne2, h1], by simp [h1n, h2], fun _ => ⟨rfl, rfl⟩, ?_⟩
    intro _ h
    exact absurd h h2

/-- Witness for upload_validation_spec: at size 10,485,761 the rejection leaves
the track lists of the empty state unchanged. -/
theorem upload_validation_spec_witness :
    (handleFileUpload emptyState "a.txt" 10485761 "audio/mpeg" 0 "" "").tracks
      = emptyState.tracks ∧
    (handleFileUpload emptyState "a.txt" 10485761 "audio/mpeg" 0 "" "").persisted
      = emptyState.persisted :=
  (upload_validation_spec emptyState "a.txt" 10485761 "audio/mpeg" 0 "" "").2.2.2.1
    (Or.inl (by decide))

/-- C4 counterexample: for the admitted file a.b.mp3 the constructed track title
is the part before the first dot, namely a, not the extension-stripped name a.b;
and the composer placeholder is the string 不明, not the string unknown. -/
theorem upload_track_fields_counterexample :
    (mkTrack "a.b.mp3" 5 "audio/mpeg" 42 "t0" "blob:x").title = "a" ∧
    "a" ≠ "a.b" ∧
    (mkTrack "a.b.mp3" 5 "audio/mpeg" 42 "t0" "blob:x").composer = "不明" ∧
    (mkTrack "a.b.mp3" 5 "audio/mpeg" 42 "t0" "blob:x").composer ≠ "unknown" := by
  refine ⟨by decide, by decide, by decide, by decide⟩

/-- C4 amended: for every admitted upload, the track handed to the library has
id equal to the decimal string of the admission timestamp, title equal to the
portion of the original filename before its first dot (which coincides with the
extension-stripped name only when the filename has at most one dot), and
composer equal to the fixed placeholder 不明; the track is appended to the
in-memory list, the updated list is persisted, and the new track becomes the
selected track while the playing flag is untouched, so playback is not started. -/
theorem upload_admitted_track_spec (st : AppState) (name : String) (size : Nat)
    (typ : String) (ts : Nat) (ua bu : String)
    (hsize : size ≤ MAX_FILE_SIZE) (htyp : typ ∈ ACCEPTED_FORMATS) :
    (mkTrack name size typ ts ua bu).id = toString ts ∧
    (mkTrack name size typ ts ua bu).title = beforeFirstDot name ∧
    (mkTrack name size typ ts ua bu).composer = "不明" ∧
    (handleFileUpload st name size typ ts ua bu).tracks
      = st.tracks ++ [mkTrack name size typ ts ua bu] ∧
    (handleFileUpload st name size typ ts ua bu).persisted
      = st.tracks ++ [mkTrack name size typ ts ua bu] ∧
    (handleFileUpload st name size typ ts ua bu).selectedTrack
      = some (mkTrack name size typ ts ua bu) ∧
    (handleFileUpload st name size typ ts ua bu).isBGMPlaying = st.isBGMPlaying := by
  have hs : ¬ size > MAX_FILE_SIZE := by omega
  simp [handleFileUpload, mkTrack, hs, htyp]

/-- Witness for upload_admitted_track_spec: a 5-byte audio/mpeg file named
song.mp3 is admitted into the empty state and becomes the selected track. -/
theorem upload_admitted_track_spec_witness :
    (handleFileUpload emptyState "song.mp3" 5 "audio/mpeg" 7 "t" "blob:y").selectedTrack
      = some (mkTrack "song.mp3" 5 "audio/mpeg" 7 "t" "blob:y") :=
  (upload_admitted_track_spec emptyState "song.mp3" 5 "audio/mpeg" 7 "t" "blob:y"
    (by decide) (by decide)).2.2.2.2.2.1

/-- What the stored bgmTracks entry can look like at startup: absent, present
but unparsable, or a parsed list of track records. -/
inductive PersistedEntry
  | absent
  | malformed
  | parsed (ts : List BGMTrack)
deriving DecidableEq, Repr

/-- Result of the tracks useState initializer: the initial library, the blob
URLs revoked, and whether an error was logged. -/
structure InitResult where
  tracks : List BGMTrack
  revoked : List String
  loggedError : Bool
deriving DecidableEq, Repr

/-- The tracks useState initializer (App.tsx lines 38-55): an absent entry
yields an empty library; a parsed entry has every blob URL it references
revoked and still yields an empty library; a malformed entry is caught, an
error is logged, and the library is empty. The function is total, so
initialization never crashes. -/
def initTracks : PersistedEntry → InitResult
  | .absent => { tracks := [], revoked := [], loggedError := false }
  | .malformed => { tracks := [], revoked := [], loggedError := true }
  | .parsed ts =>
    { tracks := []
      revoked := (ts.filter (fun t => isBlobUrl t.filename)).map
        (fun t => t.filename)
      loggedError := false }

/-- C5: whatever the persisted entry holds, the initial track library is empty;
an error is logged exactly when the entry is malformed; and every blob handle
referenced by a parsed entry is revoked. Totality of initTracks reflects that
the try/catch in the initializer never lets an exception escape. -/
theorem init_tracks_spec (p : PersistedEntry) :
    (initTracks p).tracks = [] ∧
    ((initTracks p).loggedError = true ↔ p = .malformed) ∧
    (∀ ts t, p = .parsed ts → t ∈ ts → isBlobUrl t.filename = true →
      t.filename ∈ (initTracks p).revoked) := by
  refine ⟨?_, ?_, ?_⟩
  · cases p <;> rfl
  · cases p <;> simp [initTracks]
  · intro ts t hp hmem hblob
    subst hp
    simp only [initTracks, List.mem_map]
    exact ⟨t, List.mem_filter.mpr ⟨hmem, hblob⟩, rfl⟩

/-- A concrete track whose audio source is a blob URL. -/
def blobTrack : BGMTrack :=
  { id := "1"
    title := "t"
    composer := "不明"
    filename := "blob:abc"
    originalName := "t.mp3"
    size := 1
    type := "audio/mpeg"
    uploadedAt := "t0" }

/-- Witness for init_tracks_spec: a persisted entry containing one blob-backed
track has that blob URL revoked at startup. -/
theorem init_tracks_spec_witness :
    blobTrack.filename ∈ (initTracks (.parsed [blobTrack])).revoked :=
  (init_tracks_spec (.parsed [blobTrack])).2.2 [blobTrack] blobTrack rfl
    (by decide) (by decide)

/-- The delete-button onClick handler (App.tsx lines 361-374): when the deleted
track is the selected one, the BGM element is paused, the selection is cleared
and the playing flag is dropped; the blob URL of the track, if any, is revoked;
then every list entry with the matching id is filtered out and the filtered
list replaces both the in-memory and the persisted list. Returns the new state
and the list of revoked URLs. -/
def deleteTrack (st : AppState) (track : BGMTrack) : AppState × List String :=
  let st1 :=
    match st.selectedTrack with
    | some s =>
      if s.id = track.id then
        { st with selectedTrack := none, isBGMPlaying := false }
      else st
    | none => st
  let revoked := if isBlobUrl track.filename then [track.filename] else []
  let updatedTracks := st1.tracks.filter (fun t => t.id != track.id)
  ({ st1 with tracks := updatedTracks, persisted := updatedTracks }, revoked)

/-- Splitting a list by a boolean predicate partitions its length. -/
theorem length_filter_split (p : BGMTrack → Bool) (l : List BGMTrack) :
    (l.filter (fun t => !(p t))).length + (l.filter p).length = l.length := by
  induction l with
  | nil => rfl
  | cons a l ih =>
    cases hp : p a <;> simp [List.filter_cons, hp] <;> omega

/-- When exactly one entry of the list carries the given id, filtering that id
out shortens the list by exactly one. -/
theorem length_filter_ne_of_unique_id (l : List BGMTrack) (track : BGMTrack)
    (h : (l.filter (fun t => t.id == track.id)).length = 1) :
    (l.filter (fun t => t.id != track.id)).length + 1 = l.length := by
  have hsplit := length_filter_split (fun t => t.id == track.id) l
  have h4 : l.filter (fun t => t.id != track.id)
      = l.filter (fun t => !(t.id == track.id)) := rfl
  rw [h4]
  omega

/-- C6: deleting the currently selected, currently playing, blob-backed track
drops the playing flag, clears the selection, revokes exactly its blob URL,
removes every occurrence of its id from the list (hence, since its id occurs
exactly once, shortens the list by exactly one and removes the track itself),
and stores the shortened list as the new persisted list. -/
theorem delete_selected_playing_spec (st : AppState) (track : BGMTrack)
    (hsel : st.selectedTrack = some track)
    (hplay : st.isBGMPlaying = true)
    (huniq : (st.tracks.filter (fun t => t.id == track.id)).length = 1)
    (hblob : isBlobUrl track.filename = true) :
    (deleteTrack st track).1.isBGMPlaying = false ∧
    (deleteTrack st track).1.selectedTrack = none ∧
    (deleteTrack st track).2 = [track.filename] ∧
    (deleteTrack st track).1.tracks.length + 1 = st.tracks.length ∧
    track ∉ (deleteTrack st track).1.tracks ∧
    (deleteTrack st track).1.persisted = (deleteTrack st track).1.tracks := by
  have hbranch : (match st.selectedTrack with
      | some s =>
        if s.id = track.id then
          { st with selectedTrack := none, isBGMPlaying := false }
        else st
      | none => st) =
      { st with selectedTrack := none, isBGMPlaying := false } := by
    rw [hsel]
    simp
  refine ⟨?_, ?_, ?_, ?_, ?_, ?_⟩
  · simp only [deleteTrack, hbranch]
  · simp only [deleteTrack, hbranch]
  · simp only [deleteTrack, hblob, if_pos]
  · simp only [deleteTrack, hbranch]
    exact length_filter_ne_of_unique_id st.tracks track huniq
  · simp only [deleteTrack, hbranch]
    intro hmem
    have := List.of_mem_filter hmem
    simp at this
  · simp only [deleteTrack]

/-- An app state in which the single blob-backed track is selected and playing. -/
def playingState : AppState :=
  { tracks := [blobTrack]
    persisted := [blobTrack]
    uploadError := none
    selectedTrack := some blobTrack
    isBGMPlaying := true
    isBGMLoaded := true
    showUploadForm := false }

/-- Witness for delete_selected_playing_spec: deleting the selected playing
track of playingState stops playback, clears the selection and revokes its URL. -/
theorem delete_selected_playing_spec_witness :
    (deleteTrack playingState blobTrack).1.isBGMPlaying = false ∧
    (deleteTrack playingState blobTrack).1.selectedTrack = none ∧
    (deleteTrack playingState blobTrack).2 = [blobTrack.filename] := by
  have h := delete_selected_playing_spec playingState blobTrack rfl rfl
    (by decide) (by decide)
  exact ⟨h.1, h.2.1, h.2.2.1⟩

/-- C10: deleting a track that is not the selected one (or deleting while
nothing is selected) leaves the selection, the playing flag, the loaded flag
and the upload error untouched; the in-memory list is filtered by id, the
filtered list is persisted, every track of a different id survives, and when
the deleted id occurred exactly once the length drops by exactly one. -/
theorem delete_nonselected_frame_spec (st : AppState) (track : BGMTrack)
    (hsel : ∀ s, st.selectedTrack = some s → s.id ≠ track.id) :
    (deleteTrack st track).1.selectedTrack = st.selectedTrack ∧
    (deleteTrack st track).1.isBGMPlaying = st.isBGMPlaying ∧
    (deleteTrack st track).1.isBGMLoaded = st.isBGMLoaded ∧
    (deleteTrack st track).1.uploadError = st.uploadError ∧
    (deleteTrack st track).1.tracks = st.tracks.filter (fun t => t.id != track.id) ∧
    (deleteTrack st track).1.persisted = (deleteTrack st track).1.tracks ∧
    (∀ t, t ∈ st.tracks → t.id ≠ track.id → t ∈ (deleteTrack st track).1.tracks) ∧
    ((st.tracks.filter (fun t => t.id == track.id)).length = 1 →
      (deleteTrack st track).1.tracks.length + 1 = st.tracks.length) := by
  have hbranch : (match st.selectedTrack with
      | some s =>
        if s.id = track.id then
          { st with selectedTrack := none, isBGMPlaying := false }
        else st
      | none => st) = st := by
    cases hcase : st.selectedTrack with
    | none => rfl
    | some s =>
      simp only
      rw [if_neg (hsel s hcase)]
  refine ⟨?_, ?_, ?_, ?_, ?_, ?_, ?_, ?_⟩
  · simp only [deleteTrack, hbranch]
  · simp only [deleteTrack, hbranch]
  · simp only [deleteTrack, hbranch]
  · simp only [deleteTrack, hbranch]
  · simp only [deleteTrack, hbranch]
  · simp only [deleteTrack]
  · intro t hmem hne
    simp only [deleteTrack, hbranch]
    exact List.mem_filter.mpr ⟨hmem, by simpa using hne⟩
  · intro huniq
    simp only [deleteTrack, hbranch]
    exact length_filter_ne_of_unique_id st.tracks track huniq

/-- A second track, not blob-backed and distinct in id from blobTrack. -/
def otherTrack : BGMTrack :=
  { id := "2"
    title := "u"
    composer := "不明"
    filename := "/static/u.mp3"
    originalName := "u.mp3"
    size := 2
    type := "audio/wav"
    uploadedAt := "t1" }

/-- Witness for delete_nonselected_frame_spec: with blobTrack selected and
playing, deleting otherTrack keeps the selection and the playing flag and
leaves blobTrack in the list. -/
theorem delete_nonselected_frame_spec_witness :
    (deleteTrack { playingState with tracks := [blobTrack, otherTrack] } otherTrack).1.selectedTrack
      = some blobTrack ∧
    (deleteTrack { playingState with tracks := [blobTrack, otherTrack] } otherTrack).1.isBGMPlaying
      = true ∧
    blobTrack ∈ (deleteTrack { playingState with tracks := [blobTrack, otherTrack] } otherTrack).1.tracks := by
  have h := delete_nonselected_frame_spec
    { playingState with tracks := [blobTrack, otherTrack] } otherTrack
    (fun s hs => by
      simp [playingState] at hs
      subst hs
      decide)
  exact ⟨h.1, h.2.1, h.2.2.2.2.2.2.1 blobTrack (by decide) (by decide)⟩

/-- What the selectedTrack effect does synchronously when it runs: the value of
the loaded flag afterwards, whether load() was invoked, and whether the media
handlers and the volume were (re)applied. -/
structure LoadEffectResult where
  isBGMLoaded : Bool
  loadCalled : Bool
  handlersAttached : Bool
  volumeApplied : Bool
deriving DecidableEq, Repr

/-- The selectedTrack effect (App.tsx lines 66-113), run on every change of the
selected track: it re-attaches the canplaythrough and error handlers, applies
the current volume, and calls load() only when the loaded flag read at that
moment is false. It contains no write to the loaded flag itself; the flag is
written only inside the installed handlers. -/
def loadAudioEffect (isBGMLoaded : Bool) : LoadEffectResult :=
  { isBGMLoaded := isBGMLoaded
    loadCalled := !isBGMLoaded
    handlersAttached := true
    volumeApplied := true }

/-- The two asynchronous media signals the effect listens for. -/
inductive MediaEvent
  | canPlayThrough
  | loadError
deriving DecidableEq, Repr

/-- The handlers installed by the effect (App.tsx lines 75-87): the
canplaythrough signal sets the loaded flag, a load error clears it. The
returned boolean is the new value of the loaded flag. -/
def onMediaEvent : MediaEvent → Bool
  | .canPlayThrough => true
  | .loadError => false

/-- C7 counterexample: when a track is already loaded, changing the selected
track runs the effect with the loaded flag true; the flag stays true and
load() is not even called, so the player does not re-enter the not-loaded
state and the playback controls are not disabled for the new track. -/
theorem track_change_keeps_loaded_flag :
    (loadAudioEffect true).isBGMLoaded = true ∧
    (loadAudioEffect true).loadCalled = false := by
  refine ⟨rfl, rfl⟩

/-- C7 amended: whenever the selected track changes, the effect re-attaches the
canplaythrough and error handlers and re-applies the volume, but it never
resets the loaded flag: the flag after the synchronous part of the effect
equals the flag before, and load() is initiated exactly when that flag was
false. The flag changes only through the installed handlers: to true on
canplaythrough, to false on a load error. -/
theorem track_change_load_spec (b : Bool) :
    (loadAudioEffect b).isBGMLoaded = b ∧
    (loadAudioEffect b).loadCalled = !b ∧
    (loadAudioEffect b).handlersAttached = true ∧
    (loadAudioEffect b).volumeApplied = true ∧
    onMediaEvent .canPlayThrough = true ∧
    onMediaEvent .loadError = false := by
  refine ⟨rfl, rfl, rfl, rfl, rfl, rfl⟩

/-- How the play() promise of the media element resolves: fulfilled, rejected,
or not returned at all (the undefined-promise branch of the source). -/
inductive PlayOutcome
  | resolved
  | rejected
  | undefinedPromise
deriving DecidableEq, Repr

/-- The observable outcome of one toggleBGM call: the playing flag afterwards
and which media operations and logs happened. -/
structure ToggleResult where
  isBGMPlaying : Bool
  pauseCalled : Bool
  positionReset : Bool
  playCalled : Bool
  errorLogged : Bool
deriving DecidableEq, Repr

/-- toggleBGM (App.tsx lines 174-205). With no media element or with the loaded
flag down, nothing happens. While playing, the element is paused, its position
reset to 0, and the playing flag dropped. While not playing, play() is called;
a fulfilled promise raises the playing flag, a rejected one logs the error and
leaves the flag down, and an undefined return also leaves the flag down. -/
def toggleBGM (hasBgm isBGMLoaded isBGMPlaying : Bool) (outcome : PlayOutcome) :
    ToggleResult :=
  if hasBgm && isBGMLoaded then
    if isBGMPlaying then
      { isBGMPlaying := false, pauseCalled := true, positionReset := true
        playCalled := false, errorLogged := false }
    else
      match outcome with
      | .resolved =>
        { isBGMPlaying := true, pauseCalled := false, positionReset := false
          playCalled := true, errorLogged := false }
      | .rejected =>
        { isBGMPlaying := false, pauseCalled := false, positionReset := false
          playCalled := true, errorLogged := true }
      | .undefinedPromise =>
        { isBGMPlaying := false, pauseCalled := false, positionReset := false
          playCalled := true, errorLogged := false }
  else
    { isBGMPlaying := isBGMPlaying, pauseCalled := false, positionReset := false
      playCalled := false, errorLogged := false }

/-- C8: toggleBGM is a no-op when not loaded (the playing flag is untouched and
neither pause nor play is invoked); from playing it pauses, resets the position
to the start and drops the playing flag regardless of any play outcome; from
loaded-idle a fulfilled play() raises the playing flag, while a rejected play()
logs the error and leaves the flag down without pausing or resetting, so the
player stays in loaded-idle. -/
theorem toggleBGM_spec (p : Bool) (o : PlayOutcome) :
    (toggleBGM true false p o).isBGMPlaying = p ∧
    (toggleBGM true false p o).playCalled = false ∧
    (toggleBGM true false p o).pauseCalled = false ∧
    (toggleBGM true true true o).isBGMPlaying = false ∧
    (toggleBGM true true true o).pauseCalled = true ∧
    (toggleBGM true true true o).positionReset = true ∧
    (toggleBGM true true false .resolved).isBGMPlaying = true ∧
    (toggleBGM true true false .rejected).isBGMPlaying = false ∧
    (toggleBGM true true false .rejected).errorLogged = true ∧
    (toggleBGM true true false .rejected).pauseCalled = false ∧
    (toggleBGM true true false .rejected).positionReset = false := by
  cases p <;> cases o <;> decide

/-- Bounds of the three duration fields: hours at 23, minutes and seconds at 59
(the min/max attributes and handler clamps of App.tsx lines 452-589). -/
inductive DurField
  | hours
  | minutes
  | seconds
deriving DecidableEq, Repr

def fieldBound : DurField → Int
  | .hours => 23
  | .minutes => 59
  | .seconds => 59

/-- The onChange handler of a duration field with bound b on a parsed numeric
input v (parseInt with NaN coerced to 0): Math.max(0, Math.min(b, v)). -/
def fieldOnChange (bound v : Int) : Int := max 0 (min bound v)

/-- The ArrowUp handler: Math.min(bound, current + 1). -/
def fieldUp (bound cur : Int) : Int := min bound (cur + 1)

/-- The ArrowDown handler: Math.max(0, current - 1). -/
def fieldDown (cur : Int) : Int := max 0 (cur - 1)

/-- The digit-key rolling-entry handler: Math.min(bound, (current * 10 + d) %
100), where % is the JS remainder, i.e. Int.tmod. -/
def fieldDigit (bound cur d : Int) : Int :=
  min bound (Int.tmod (cur * 10 + d) 100)

def DurationInput.get (st : DurationInput) : DurField → Int
  | .hours => st.hours
  | .minutes => st.minutes
  | .seconds => st.seconds

def DurationInput.put (st : DurationInput) : DurField → Int → DurationInput
  | .hours, v => { st with hours := v }
  | .minutes, v => { st with minutes := v }
  | .seconds, v => { st with seconds := v }

/-- The possible mutations of the duration input: direct numeric entry,
increment, decrement, and a rolling-entry digit keystroke on one field. -/
inductive DurEvent
  | entry (f : DurField) (v : Int)
  | up (f : DurField)
  | down (f : DurField)
  | digit (f : DurField) (d : Int)
deriving DecidableEq, Repr

/-- Dispatch of one mutation onto the duration input state, combining the
onChange and onKeyDown handlers of the three fields (App.tsx lines 452-589). -/
def applyDurEvent (st : DurationInput) : DurEvent → DurationInput
  | .entry f v => st.put f (fieldOnChange (fieldBound f) v)
  | .up f => st.put f (fieldUp (fieldBound f) (st.get f))
  | .down f => st.put f (fieldDown (st.get f))
  | .digit f d => st.put f (fieldDigit (fieldBound f) (st.get f) d)

/-- The range invariant of the duration input. -/
def DurationInput.Valid (st : DurationInput) : Prop :=
  0 ≤ st.hours ∧ st.hours ≤ 23 ∧ 0 ≤ st.minutes ∧ st.minutes ≤ 59 ∧
    0 ≤ st.seconds ∧ st.seconds ≤ 59

/-- A digit keystroke carries a digit between 0 and 9; the other events carry
no side condition. -/
def DurEvent.Wf : DurEvent → Prop
  | .digit _ d => 0 ≤ d ∧ d ≤ 9
  | _ => True

/-- C9: every mutation of the duration input — direct entry, increment,
decrement, and the rolling-entry keystroke computing (old * 10 + digit) mod 100
and clamping to the field bound — maps a state satisfying hours in [0,23] and
minutes, seconds in [0,59] to a state satisfying the same invariant. -/
theorem duration_mutations_preserve (st : DurationInput) (e : DurEvent)
    (hst : st.Valid) (he : e.Wf) : (applyDurEvent st e).Valid := by
  obtain ⟨h1, h2, h3, h4, h5, h6⟩ := hst
  have hmod : ∀ cur d : Int, 0 ≤ cur → 0 ≤ d →
      0 ≤ Int.tmod (cur * 10 + d) 100 ∧ Int.tmod (cur * 10 + d) 100 < 100 := by
    intro cur d hc hd
    have hnn : (0 : Int) ≤ cur * 10 + d := by positivity
    rw [Int.tmod_eq_emod hnn (by omega)]
    constructor
    · exact Int.emod_nonneg _ (by omega)
    · exact Int.emod_lt_of_pos _ (by omega)
  cases e with
  | entry f v =>
    cases f <;>
      simp only [applyDurEvent, DurationInput.put, DurationInput.Valid,
        fieldOnChange, fieldBound] <;>
      refine ⟨?_, ?_, ?_, ?_, ?_, ?_⟩ <;> omega
  | up f =>
    cases f <;>
      simp only [applyDurEvent, DurationInput.put, DurationInput.get,
        DurationInput.Valid, fieldUp, fieldBound] <;>
      refine ⟨?_, ?_, ?_, ?_, ?_, ?_⟩ <;> omega
  | down f =>
    cases f <;>
      simp only [applyDurEvent, DurationInput.put, DurationInput.get,
        DurationInput.Valid, fieldDown, fieldBound] <;>
      refine ⟨?_, ?_, ?_, ?_, ?_, ?_⟩ <;> omega
  | digit f d =>
    obtain ⟨hd0, hd9⟩ := he
    cases f
    · have := hmod st.hours d h1 hd0
      simp only [applyDurEvent, DurationInput.put, DurationInput.get,
        DurationInput.Valid, fieldDigit, fieldBound]
      refine ⟨?_, ?_, ?_, ?_, ?_, ?_⟩ <;> omega
    · have := hmod st.minutes d h3 hd0
      simp only [applyDurEvent, DurationInput.put, DurationInput.get,
        DurationInput.Valid, fieldDigit, fieldBound]
      refine ⟨?_, ?_, ?_, ?_, ?_, ?_⟩ <;> omega
    · have := hmod st.seconds d h5 hd0
      simp only [applyDurEvent, DurationInput.put, DurationInput.get,
        DurationInput.Valid, fieldDigit, fieldBound]
      refine ⟨?_, ?_, ?_, ?_, ?_, ?_⟩ <;> omega

/-- Witness for duration_mutations_preserve: a 9 keystroke on the hours field
of the maximal valid state 23:59:59 keeps the state valid. -/
theorem duration_mutations_preserve_witness :
    (applyDurEvent ⟨23, 59, 59⟩ (.digit .hours 9)).Valid :=
  duration_mutations_preserve ⟨23, 59, 59⟩ (.digit .hours 9)
    ⟨by decide, by decide, by decide, by decide, by decide, by decide⟩
    ⟨by decide, by decide⟩

end TimerAlarm
